import Mathlib

/-!
Verification development for the qbs object-relational mapping engine
(file `qbs.go`).  The Go source is shallowly embedded: the session state
(`Qbs`) becomes an explicit record, SQL-side effects become outcome
parameters, and each exported operation becomes a Lean function that
mirrors the control flow of the corresponding Go function.  Helpers that
live in the repository outside the embedded file (condition building,
criteria merging, model introspection predicates, the snake/camel name
conversion, the concrete dialect executors) are modelled from the
specification and carry a doc comment saying so.
-/

set_option autoImplicit false

namespace QbsSpec

/-- A raw driver-level value, as carried in condition arguments, model
fields and scanned result cells. -/
inductive RawVal where
  | int (i : Int)
  | str (s : String)
  | time (t : Nat)
  | boolean (b : Bool)
deriving DecidableEq, Repr

/-- Errors surfaced by the engine.  `noRows` embeds the distinguished
`sql.ErrNoRows` sentinel; `dbErr` stands for any driver/backend error;
`validation` for an error returned by the optional `Validator` hook;
`scanConv` for a value-conversion failure reported by the dialect
during scanning. -/
inductive Err where
  | noRows
  | dbErr (msg : String)
  | validation (msg : String)
  | scanConv (msg : String)
deriving DecidableEq, Repr

/-- A `Condition` is a WHERE-clause expression with `?` placeholders plus
its ordered bound values.  Modelled from the spec: the condition builder
(`condition.go`, not under `src/`) pairs an expression string with the
bound-value sequence. -/
structure Condition where
  expr : String
  args : List RawVal
deriving DecidableEq, Repr

/-- Modelled from the spec: `NewCondition` (not under `src/`) wraps an
expression and its bound values into a `Condition`. -/
def NewCondition (expr : String) (args : List RawVal) : Condition :=
  ⟨expr, args⟩

/-- Modelled from the spec: AND-combination of two conditions (not under
`src/`) produces a single condition whose bound-value sequence is the
left values followed by the right values, left expression first. -/
def Condition.andCondition (a b : Condition) : Condition :=
  ⟨"(" ++ a.expr ++ ") AND (" ++ b.expr ++ ")", a.args ++ b.args⟩

/-- One reflected field of a model: snake-case column name, camel-case
struct field name, current value. -/
structure ModelField where
  name : String
  camelName : String
  value : RawVal
deriving DecidableEq, Repr

/-- The introspection result for one struct: table name, the optional
primary-key field and the optional "created"/"updated" timestamp fields
(the pieces of the model the embedded file consumes).  The construction
itself (`structPtrToModel`, `model.go`, not under `src/`) is abstracted:
operations take the resulting `Model` as a parameter. -/
structure Model where
  table : String
  pk : Option ModelField
  created : Option ModelField
  updated : Option ModelField
deriving DecidableEq, Repr

/-- Modelled from the spec: `pkZero` (`model.go`, not under `src/`).  The
primary key is zero-valued when the field is absent, an integer zero or
an empty string; other value kinds are not usable as keys and count as
zero. -/
def Model.pkZero (m : Model) : Bool :=
  match m.pk with
  | none => true
  | some f =>
    match f.value with
    | .int i => i == 0
    | .str s => s == ""
    | _ => true

/-- The ordering entry of a criteria: quoted path plus descending flag. -/
structure OrderBy where
  path : String
  desc : Bool
deriving DecidableEq, Repr

/-- The per-call query-intent aggregate (`criteria` in the source). -/
structure Criteria where
  model : Option Model
  condition : Option Condition
  limit : Nat
  offset : Nat
  orderBys : List OrderBy
  omitFields : List String
  omitJoin : Bool
deriving DecidableEq, Repr

/-- The fresh criteria produced by `Qbs.Reset` (`new(criteria)`). -/
def emptyCriteria : Criteria :=
  ⟨none, none, 0, 0, [], [], false⟩

/-- The session state: whether a transaction is open (`Tx != nil`), the
current criteria, and the sticky first-transaction-error slot. -/
structure Qbs where
  inTx : Bool
  criteria : Criteria
  firstTxError : Option Err
deriving DecidableEq, Repr

/-- `updateTxError`: records the error into the sticky slot unless one is
already stored, and returns the state; the Go function also returns its
argument, which callers thread separately. -/
def Qbs.updateTxError (q : Qbs) (e : Option Err) : Qbs :=
  match e with
  | none => q
  | some _ => if q.firstTxError = none then { q with firstTxError := e } else q

/-- `Begin`: panics on a nested transaction, otherwise opens one. -/
def Qbs.begin (q : Qbs) : Option Qbs :=
  if q.inTx then none else some { q with inTx := true }

/-- `Commit`: runs the driver commit (outcome `e`), records its error,
clears the transaction handle and returns the sticky first error. -/
def Qbs.commit (q : Qbs) (e : Option Err) : Qbs × Option Err :=
  let q1 := q.updateTxError e
  let q2 : Qbs := { q1 with inTx := false }
  (q2, q2.firstTxError)

/-- `Rollback`: runs the driver rollback (outcome `e`), clears the
transaction handle, records the error and returns that error itself. -/
def Qbs.rollback (q : Qbs) (e : Option Err) : Qbs × Option Err :=
  let q1 : Qbs := { q with inTx := false }
  (q1.updateTxError e, e)

/-- One error-producing operation inside a transaction, abstracted by the
error outcome of its underlying driver call.  `execOp` also resets the
criteria (deferred `q.Reset()` in `Exec`). -/
inductive TxOp where
  | execOp (e : Option Err)
  | queryOp (e : Option Err)
  | prepareOp (e : Option Err)
  | commitOp (e : Option Err)
  | rollbackOp (e : Option Err)
deriving DecidableEq, Repr

/-- The error outcome carried by a transaction operation. -/
def TxOp.err : TxOp → Option Err
  | .execOp e => e
  | .queryOp e => e
  | .prepareOp e => e
  | .commitOp e => e
  | .rollbackOp e => e

/-- State transition of one operation on the session, as far as the
transaction-error bookkeeping is concerned. -/
def txStep (q : Qbs) (op : TxOp) : Qbs :=
  match op with
  | .execOp e => ({ q with criteria := emptyCriteria } : Qbs).updateTxError e
  | .queryOp e => q.updateTxError e
  | .prepareOp e => q.updateTxError e
  | .commitOp e => (q.commit e).1
  | .rollbackOp e => (q.rollback e).1

/-- Folding a sequence of operations over the session state. -/
def runOps (q : Qbs) (ops : List TxOp) : Qbs :=
  ops.foldl txStep q

/-- The first non-nil error among a sequence of operations. -/
def firstError (ops : List TxOp) : Option Err :=
  ops.findSome? TxOp.err

theorem txStep_firstTxError_of_some (q : Qbs) (op : TxOp) (e : Err)
    (h : q.firstTxError = some e) : (txStep q op).firstTxError = some e := by
  cases op <;> simp [txStep, Qbs.updateTxError, Qbs.commit, Qbs.rollback] <;>
    split <;> simp_all

theorem runOps_firstTxError_of_some (q : Qbs) (ops : List TxOp) (e : Err)
    (h : q.firstTxError = some e) : (runOps q ops).firstTxError = some e := by
  induction ops generalizing q with
  | nil => simpa [runOps] using h
  | cons op rest ih =>
    simp only [runOps, List.foldl_cons]
    exact ih _ (txStep_firstTxError_of_some q op e h)

theorem txStep_firstTxError_of_none (q : Qbs) (op : TxOp)
    (h : q.firstTxError = none) : (txStep q op).firstTxError = op.err := by
  cases op <;> rename_i e <;> cases e <;>
    simp_all [txStep, Qbs.updateTxError, Qbs.commit, Qbs.rollback, TxOp.err]

theorem runOps_firstTxError_of_none (q : Qbs) (ops : List TxOp)
    (h : q.firstTxError = none) :
    (runOps q ops).firstTxError = firstError ops := by
  induction ops generalizing q with
  | nil => simpa [runOps, firstError] using h
  | cons op rest ih =>
    simp only [runOps, List.foldl_cons, firstError, List.findSome?]
    cases he : op.err with
    | none =>
      have h1 : (txStep q op).firstTxError = none := by
        rw [txStep_firstTxError_of_none q op h, he]
      simpa [firstError, he] using ih (txStep q op) h1
    | some e =>
      have h1 : (txStep q op).firstTxError = some e := by
        rw [txStep_firstTxError_of_none q op h, he]
      simpa [he, runOps] using runOps_firstTxError_of_some (txStep q op) rest e h1

/-- C5: in a transaction run from a clean session, only the first non-nil
operation error is retained in the sticky slot, and `Commit` returns that
first error regardless of the outcome of the driver commit call itself
and regardless of later operation failures. -/
theorem commit_reports_first_tx_error (q0 : Qbs) (ops : List TxOp)
    (ce : Option Err) (e : Err)
    (hclean : q0.firstTxError = none)
    (hfirst : firstError ops = some e) :
    (runOps q0 ops).firstTxError = some e ∧
      ((runOps q0 ops).commit ce).2 = some e := by
  have hrun : (runOps q0 ops).firstTxError = some e := by
    rw [runOps_firstTxError_of_none q0 ops hclean, hfirst]
  refine ⟨hrun, ?_⟩
  cases ce with
  | none => simp [Qbs.commit, Qbs.updateTxError, hrun]
  | some ce' => simp [Qbs.commit, Qbs.updateTxError, hrun]

/-- Witness for C5: a concrete transaction in which a query fails with
error `a`, a later exec fails with error `b`, the driver commit succeeds,
and `Commit` returns `a`. -/
theorem commit_reports_first_tx_error_witness :
    (runOps ⟨true, emptyCriteria, none⟩
        [.queryOp (some (.dbErr "a")), .execOp (some (.dbErr "b"))]).firstTxError
      = some (.dbErr "a") ∧
    ((runOps ⟨true, emptyCriteria, none⟩
        [.queryOp (some (.dbErr "a")), .execOp (some (.dbErr "b"))]).commit none).2
      = some (.dbErr "a") :=
  commit_reports_first_tx_error ⟨true, emptyCriteria, none⟩
    [.queryOp (some (.dbErr "a")), .execOp (some (.dbErr "b"))]
    none (.dbErr "a") (by decide) (by decide)

/-- C10: the sticky first-error slot, once set, survives every operation:
`Commit` and `Rollback` clear the transaction handle but keep the slot, a
new `Begin` keeps it, and the commit of a later transaction still returns
the earlier transaction error even when every operation of the later
transaction succeeded or failed differently. -/
theorem first_tx_error_is_never_cleared (q : Qbs) (e : Err)
    (ce re ce2 : Option Err) (ops : List TxOp)
    (h : q.firstTxError = some e) :
    (q.commit ce).1.firstTxError = some e ∧
    (q.commit ce).1.inTx = false ∧
    (q.rollback re).1.firstTxError = some e ∧
    (q.rollback re).1.inTx = false ∧
    (q.commit ce).1.begin = some { (q.commit ce).1 with inTx := true } ∧
    ((runOps { (q.commit ce).1 with inTx := true } ops).commit ce2).2 = some e := by
  have hc : (q.commit ce).1.firstTxError = some e := by
    cases ce <;> simp [Qbs.commit, Qbs.updateTxError, h]
  have hr : (q.rollback re).1.firstTxError = some e := by
    cases re <;> simp [Qbs.rollback, Qbs.updateTxError, h]
  have hcx : (q.commit ce).1.inTx = false := by
    cases ce <;> simp [Qbs.commit, Qbs.updateTxError]
  have hrx : (q.rollback re).1.inTx = false := by
    cases re <;> simp [Qbs.rollback, Qbs.updateTxError, h]
  have hb : (q.commit ce).1.begin = some { (q.commit ce).1 with inTx := true } := by
    simp [Qbs.begin, hcx]
  have hrun : (runOps { (q.commit ce).1 with inTx := true } ops).firstTxError = some e :=
    runOps_firstTxError_of_some _ ops e (by simpa using hc)
  have hfinal : ((runOps { (q.commit ce).1 with inTx := true } ops).commit ce2).2 = some e := by
    generalize hX : runOps { (q.commit ce).1 with inTx := true } ops = Q at hrun ⊢
    cases ce2 <;> simp [Qbs.commit, Qbs.updateTxError, hrun]
  exact ⟨hc, hcx, hr, hrx, hb, hfinal⟩

/-- Witness for C10: a session whose first transaction recorded error `a`
commits, begins a second transaction whose single exec succeeds, and the
second commit still returns `a`. -/
theorem first_tx_error_is_never_cleared_witness :
    ((⟨true, emptyCriteria, some (.dbErr "a")⟩ : Qbs).commit none).1.firstTxError
        = some (.dbErr "a") ∧
    ((⟨true, emptyCriteria, some (.dbErr "a")⟩ : Qbs).commit none).1.inTx = false ∧
    ((⟨true, emptyCriteria, some (.dbErr "a")⟩ : Qbs).rollback none).1.firstTxError
        = some (.dbErr "a") ∧
    ((⟨true, emptyCriteria, some (.dbErr "a")⟩ : Qbs).rollback none).1.inTx = false ∧
    ((⟨true, emptyCriteria, some (.dbErr "a")⟩ : Qbs).commit none).1.begin
        = some { ((⟨true, emptyCriteria, some (.dbErr "a")⟩ : Qbs).commit none).1
                   with inTx := true } ∧
    ((runOps { ((⟨true, emptyCriteria, some (.dbErr "a")⟩ : Qbs).commit none).1
                 with inTx := true } [.execOp none]).commit none).2
        = some (.dbErr "a") :=
  first_tx_error_is_never_cleared ⟨true, emptyCriteria, some (.dbErr "a")⟩
    (.dbErr "a") none none none [.execOp none] (by decide)

/-! ## Result scanning (`scanRows`) -/

/-- `strings.Split(key, "___")` specialised to the three-underscore join
separator: greedy leftmost split of a character list. -/
def splitTriple : List Char → List Char → List (List Char)
  | acc, '_' :: '_' :: '_' :: rest => acc.reverse :: splitTriple [] rest
  | acc, c :: rest => splitTriple (c :: acc) rest
  | acc, [] => [acc.reverse]

/-- The Go `strings.Split(key, "___")` call of `scanRows`. -/
def goSplit (key : String) : List String :=
  (splitTriple [] key.data).map (fun cs => String.mk cs)

/-- Uppercase an ASCII letter. -/
def capChar (c : Char) : Char :=
  if 'a' ≤ c ∧ c ≤ 'z' then Char.ofNat (c.toNat - 32) else c

/-- Split a character list at single underscores. -/
def splitUnderscore : List Char → List Char → List (List Char)
  | acc, '_' :: rest => acc.reverse :: splitUnderscore [] rest
  | acc, c :: rest => splitUnderscore (c :: acc) rest
  | acc, [] => [acc.reverse]

/-- Capitalize the first character of a word. -/
def capitalizeChars : List Char → List Char
  | [] => []
  | c :: cs => capChar c :: cs

/-- Modelled from the spec: `snakeToUpperCamel` (`util.go`, not under
`src/`): the deterministic snake-case to camel-case field-name
conversion, splitting at underscores and capitalizing each part. -/
def snakeToUpperCamel (s : String) : String :=
  String.mk (((splitUnderscore [] s.data).map capitalizeChars).flatten)

/-- Association-list lookup by name (the `reflect` `FieldByName`
resolution: a found field is a valid `reflect.Value`, a missing one is
the invalid zero `Value`). -/
def lookupA {α : Type} (l : List (String × α)) (k : String) : Option α :=
  (l.find? (fun p => p.1 == k)).map (fun p => p.2)

/-- Set an existing entry of an association list. -/
def setA {α : Type} (l : List (String × α)) (k : String) (v : α) : List (String × α) :=
  l.map (fun p => if p.1 == k then (k, v) else p)

/-- A pointer-to-struct field of the destination struct: the zero value
of the pointed-to struct type (`tyFields`, used by `reflect.New` on
allocation) and the current pointee (`none` models a nil pointer). -/
structure SubSlot where
  tyFields : List (String × RawVal)
  val : Option (List (String × RawVal))
deriving DecidableEq, Repr

/-- The destination struct of a scan: scalar top-level fields and
pointer-to-struct join fields, both addressed by camel-case name. -/
structure StructVal where
  fields : List (String × RawVal)
  subs : List (String × SubSlot)
deriving DecidableEq, Repr

/-- The dialect `setModelValue` conversion, abstracted: given the
destination field name and the raw column value it yields the stored
value or a conversion error. -/
def Smv : Type := String → RawVal → Except String RawVal

/-- Outcome of scanning: success, an error return (with the struct as
mutated so far), or a Go runtime panic. -/
inductive ScanRes where
  | ok (s : StructVal)
  | err (s : StructVal) (e : Err)
  | panicked (msg : String)
deriving DecidableEq, Repr

/-- Store a new pointee into the named pointer-to-struct field. -/
def routeSub (s : StructVal) (p : String) (slot : SubSlot) (newVal : List (String × RawVal)) : StructVal :=
  { s with subs := setA s.subs p ({ slot with val := some newVal }) }

/-- One loop iteration of `scanRows` for column `key` holding `cell`
(`none` models a SQL NULL, whose untyped container holds a nil
interface, so `value.Elem().IsValid()` is false and the column is
skipped).  A two-part `___` name is routed into the named
pointer-to-struct field, allocating the pointee if nil; note that
`subStruct.IsNil()` is called without a validity check, so an
unrecognized parent segment panics at runtime, while an unrecognized
plain name or child segment is skipped via the `IsValid` guards. -/
def scanCol (smv : Smv) (s : StructVal) (key : String) (cell : Option RawVal) : ScanRes :=
  match cell with
  | none => .ok s
  | some v =>
    match goSplit key with
    | [p0, p1] =>
      match lookupA s.subs (snakeToUpperCamel p0) with
      | none => .panicked "reflect: call of reflect.Value.IsNil on zero Value"
      | some slot =>
        let sub := slot.val.getD slot.tyFields
        match lookupA sub (snakeToUpperCamel p1) with
        | none => .ok (routeSub s (snakeToUpperCamel p0) slot sub)
        | some _ =>
          match smv (snakeToUpperCamel p1) v with
          | .error msg => .err (routeSub s (snakeToUpperCamel p0) slot sub) (.scanConv msg)
          | .ok w => .ok (routeSub s (snakeToUpperCamel p0) slot (setA sub (snakeToUpperCamel p1) w))
    | _ =>
      match lookupA s.fields (snakeToUpperCamel key) with
      | none => .ok s
      | some _ =>
        match smv (snakeToUpperCamel key) v with
        | .error msg => .err s (.scanConv msg)
        | .ok w => .ok { s with fields := setA s.fields (snakeToUpperCamel key) w }

/-- The column loop of `scanRows` over the zipped (column name, cell)
pairs of one result row. -/
def scanRow (smv : Smv) (s : StructVal) : List (String × Option RawVal) → ScanRes
  | [] => .ok s
  | (k, c) :: rest =>
    match scanCol smv s k c with
    | .ok s2 => scanRow smv s2 rest
    | .err s2 e => .err s2 e
    | .panicked msg => .panicked msg

/-- C8: a result column whose name splits at `___` into (parent, child)
is routed into the `child` field of the struct `parent` pointer field,
allocating the pointee (the type zero value) when the pointer was nil,
and storing the dialect-converted value; and a column whose scanned
value is SQL NULL leaves the destination struct entirely unmodified. -/
theorem scan_routes_join_columns_and_skips_null
    (smv : Smv) (s : StructVal) (key parent child : String) (v : RawVal)
    (slot : SubSlot) (old w : RawVal)
    (hsplit : goSplit key = [parent, child])
    (hparent : lookupA s.subs (snakeToUpperCamel parent) = some slot)
    (hchild : lookupA (slot.val.getD slot.tyFields) (snakeToUpperCamel child) = some old)
    (hconv : smv (snakeToUpperCamel child) v = .ok w) :
    scanCol smv s key (some v) =
      .ok (routeSub s (snakeToUpperCamel parent) slot
            (setA (slot.val.getD slot.tyFields) (snakeToUpperCamel child) w)) ∧
    (∀ (s2 : StructVal) (k2 : String), scanCol smv s2 k2 none = .ok s2) := by
  constructor
  · simp [scanCol, hsplit, hparent, hchild, hconv]
  · intro s2 k2
    simp [scanCol]

/-- Witness for C8: scanning the column `address___city` with value
`"sf"` into a struct whose `Address` pointer is nil allocates the
pointee and sets its `City` field; a NULL cell changes nothing. -/
theorem scan_routes_join_columns_and_skips_null_witness :
    goSplit "address___city" = ["address", "city"] ∧
    scanCol (fun _ v => .ok v)
        ⟨[("Name", .str "")], [("Address", ⟨[("City", .str "")], none⟩)]⟩
        "address___city" (some (.str "sf")) =
      .ok (routeSub ⟨[("Name", .str "")], [("Address", ⟨[("City", .str "")], none⟩)]⟩
            (snakeToUpperCamel "address") ⟨[("City", .str "")], none⟩
            (setA ((none : Option (List (String × RawVal))).getD [("City", .str "")])
              (snakeToUpperCamel "city") (.str "sf"))) ∧
    (∀ (s2 : StructVal) (k2 : String), scanCol (fun _ v => .ok v) s2 k2 none = .ok s2) := by
  refine ⟨by decide, ?_⟩
  exact scan_routes_join_columns_and_skips_null (fun _ v => .ok v)
    ⟨[("Name", .str "")], [("Address", ⟨[("City", .str "")], none⟩)]⟩
    "address___city" "address" "city" (.str "sf")
    ⟨[("City", .str "")], none⟩ (.str "") (.str "sf")
    (by decide) (by decide) (by decide) rfl

/-- Counterexample for C9: the claim says a join-aliased column whose
parent segment names no field of the struct is silently ignored and the
scan neither fails nor panics; but `scanRows` calls `IsNil` on the
unchecked `FieldByName` result, so scanning column `foo___bar` with a
non-NULL value into a struct without a `Foo` field panics. -/
theorem scan_unknown_join_parent_panics :
    scanCol (fun _ v => .ok v) ⟨[("Name", .str "")], []⟩ "foo___bar" (some (.int 1)) =
      .panicked "reflect: call of reflect.Value.IsNil on zero Value" := by
  decide

/-- C9 (amended): a plain (non two-part) column name matching no
top-level field is silently ignored; a two-part `___` column with a
recognized parent but unrecognized child segment is silently ignored
apart from the pointee allocation; a NULL cell is always skipped; but a
two-part `___` column whose parent segment names no pointer field of
the struct causes a reflection panic when its value is non-NULL. -/
theorem scan_ignores_unknown_columns_except_join_parent
    (smv : Smv) (s : StructVal) (key : String) (v : RawVal) :
    ((goSplit key).length ≠ 2 → lookupA s.fields (snakeToUpperCamel key) = none →
      ∀ cell, scanCol smv s key cell = .ok s) ∧
    (∀ parent child slot, goSplit key = [parent, child] →
      lookupA s.subs (snakeToUpperCamel parent) = some slot →
      lookupA (slot.val.getD slot.tyFields) (snakeToUpperCamel child) = none →
      scanCol smv s key (some v) =
        .ok (routeSub s (snakeToUpperCamel parent) slot (slot.val.getD slot.tyFields))) ∧
    (scanCol smv s key none = .ok s) ∧
    (∀ parent child, goSplit key = [parent, child] →
      lookupA s.subs (snakeToUpperCamel parent) = none →
      scanCol smv s key (some v) =
        .panicked "reflect: call of reflect.Value.IsNil on zero Value") := by
  refine ⟨?_, ?_, by simp [scanCol], ?_⟩
  · intro hlen hfield cell
    cases cell with
    | none => simp [scanCol]
    | some v2 =>
      simp only [scanCol]
      split
      · rename_i heq
        have h2 : (goSplit key).length = 2 := by rw [heq]; rfl
        exact absurd h2 hlen
      · simp [hfield]
  · intro parent child slot hsplit hparent hchild
    simp [scanCol, hsplit, hparent, hchild]
  · intro parent child hsplit hparent
    simp [scanCol, hsplit, hparent]

/-- Witness for C9 (amended): column `bogus` is ignored even with a
value, column `address___zip` on a struct whose `Address` pointee lacks
a `Zip` field only allocates the pointee, and a NULL cell is skipped. -/
theorem scan_ignores_unknown_columns_except_join_parent_witness :
    ((goSplit "bogus").length ≠ 2 ∧
      lookupA ([("Name", RawVal.str "")] : List (String × RawVal))
        (snakeToUpperCamel "bogus") = none) ∧
    scanCol (fun _ v => .ok v)
        ⟨[("Name", .str "")], [("Address", ⟨[("City", .str "")], none⟩)]⟩
        "bogus" (some (.int 3)) = .ok
        ⟨[("Name", .str "")], [("Address", ⟨[("City", .str "")], none⟩)]⟩ ∧
    goSplit "address___zip" = ["address", "zip"] ∧
    scanCol (fun _ v => .ok v)
        ⟨[("Name", .str "")], [("Address", ⟨[("City", .str "")], none⟩)]⟩
        "address___zip" (some (.int 3)) =
      .ok (routeSub ⟨[("Name", .str "")], [("Address", ⟨[("City", .str "")], none⟩)]⟩
            (snakeToUpperCamel "address") ⟨[("City", .str "")], none⟩
            (((⟨[("City", .str "")], none⟩ : SubSlot)).val.getD [("City", .str "")])) := by
  refine ⟨⟨by decide, by decide⟩, ?_, by decide, ?_⟩
  · exact (scan_ignores_unknown_columns_except_join_parent (fun _ v => .ok v)
      ⟨[("Name", .str "")], [("Address", ⟨[("City", .str "")], none⟩)]⟩
      "bogus" (.int 3)).1 (by decide) (by decide) (some (.int 3))
  · exact (scan_ignores_unknown_columns_except_join_parent (fun _ v => .ok v)
      ⟨[("Name", .str "")], [("Address", ⟨[("City", .str "")], none⟩)]⟩
      "address___zip" (.int 3)).2.1 "address" "zip"
      ⟨[("City", .str "")], none⟩ (by decide) (by decide) (by decide)

/-! ## Query execution, Find and FindAll -/

/-- The dialect boundary as consumed by the embedded file: the
identifier quoting function, and the abstracted outcomes of executing
the rendered UPDATE (affected count, error), INSERT (generated id,
error) and DELETE (affected count, error) statements. -/
structure Dialect where
  quote : String → String
  updateOutcome : Int × Option Err
  insertOutcome : Int × Option Err
  deleteOutcome : Int × Option Err

/-- Outcome of an operation that can terminate the program with a Go
panic. -/
inductive Outcome (α : Type) where
  | ok (a : α)
  | panicked (msg : String)
deriving DecidableEq, Repr

/-- The backend response to one prepared query: a prepare error, a query
execution error, and otherwise the result set (column names and rows of
cells, `none` being SQL NULL). -/
structure QueryExec where
  prepareErr : Option Err
  queryErr : Option Err
  cols : List String
  rows : List (List (Option RawVal))
deriving Repr

/-- `doQueryRow` (lines 184-208): the deferred `Reset` runs on every
exit path; prepare and query errors are recorded in the sticky slot and
returned; an empty result set returns `sql.ErrNoRows`; otherwise the
first row is scanned into the caller struct. -/
def doQueryRow (q : Qbs) (smv : Smv) (out : StructVal) (qe : QueryExec) :
    Outcome (Qbs × StructVal × Option Err) :=
  let q0 : Qbs := { q with criteria := emptyCriteria }
  match qe.prepareErr with
  | some e => .ok (q0.updateTxError (some e), out, some e)
  | none =>
  match qe.queryErr with
  | some e => .ok (q0.updateTxError (some e), out, some e)
  | none =>
  match qe.rows with
  | [] => .ok (q0, out, some .noRows)
  | r :: _ =>
    match scanRow smv out (qe.cols.zip r) with
    | .ok s => .ok (q0, s, none)
    | .err s e => .ok (q0, s, some e)
    | .panicked msg => .panicked msg

/-- The row loop of `doQueryRows` (lines 228-235): scan a fresh zero
struct per row and append it; a scan error returns immediately with the
rows appended so far; the criteria was already reset (`q0`). -/
def queryRowsLoop (smv : Smv) (zero : StructVal) (cols : List String) (q0 : Qbs)
    (acc : List StructVal) :
    List (List (Option RawVal)) → Outcome (Qbs × List StructVal × Option Err)
  | [] => .ok (q0, acc, none)
  | r :: rest =>
    match scanRow smv zero (cols.zip r) with
    | .ok s => queryRowsLoop smv zero cols q0 (acc ++ [s]) rest
    | .err _ e => .ok (q0, acc, some e)
    | .panicked msg => .panicked msg

/-- `doQueryRows` (lines 210-237). -/
def doQueryRows (q : Qbs) (smv : Smv) (zero : StructVal) (init : List StructVal)
    (qe : QueryExec) : Outcome (Qbs × List StructVal × Option Err) :=
  let q0 : Qbs := { q with criteria := emptyCriteria }
  match qe.prepareErr with
  | some e => .ok (q0.updateTxError (some e), init, some e)
  | none =>
  match qe.queryErr with
  | some e => .ok (q0.updateTxError (some e), init, some e)
  | none => queryRowsLoop smv zero qe.cols q0 init qe.rows

/-- The primary-key equality condition `Find` synthesizes (lines
162-163): quoted `table`.`pk` path, one placeholder, the key value. -/
def pkCondition (d : Dialect) (m : Model) (pkf : ModelField) : Condition :=
  NewCondition (d.quote m.table ++ "." ++ d.quote pkf.name ++ " = ?") [pkf.value]

/-- The criteria `Find` builds before rendering (lines 159-169): the
model is installed, the limit forced to 1, and when the primary key is
non-zero its equality condition is AND-combined ahead of any user
condition. -/
def findCriteria (d : Dialect) (c : Criteria) (m : Model) : Criteria :=
  let c1 : Criteria := { c with model := some m, limit := 1 }
  if m.pkZero then c1
  else
    match m.pk with
    | none => c1
    | some pkf =>
      match c1.condition with
      | none => { c1 with condition := some (pkCondition d m pkf) }
      | some uc => { c1 with condition := some ((pkCondition d m pkf).andCondition uc) }

/-- `Find` (lines 158-172): the introspected model of the struct
argument is the `m` parameter; the rendered SQL is abstracted by the
`QueryExec` response. -/
def Find (q : Qbs) (d : Dialect) (m : Model) (smv : Smv) (out : StructVal)
    (qe : QueryExec) : Outcome (Qbs × StructVal × Option Err) :=
  doQueryRow { q with criteria := findCriteria d q.criteria m } smv out qe

/-- `FindAll` (lines 176-182): the model comes from the slice element
type; rows are appended to the caller slice `init`. -/
def FindAll (q : Qbs) (m : Model) (smv : Smv) (zero : StructVal)
    (init : List StructVal) (qe : QueryExec) :
    Outcome (Qbs × List StructVal × Option Err) :=
  doQueryRows { q with criteria := { q.criteria with model := some m } } smv zero init qe

/-- `Exec` (lines 283-297): deferred `Reset` on every exit, prepare and
execution errors recorded in the sticky slot and returned. -/
def Exec (q : Qbs) (prepErr execErr : Option Err) : Qbs × Option Err :=
  let q0 : Qbs := { q with criteria := emptyCriteria }
  match prepErr with
  | some e => (q0.updateTxError (some e), some e)
  | none =>
    match execErr with
    | some e => (q0.updateTxError (some e), some e)
    | none => (q0, none)

/-! ## Save, Update, Delete -/

/-- Modelled from the spec: `criteria.mergePkCondition` (`criteria.go`,
not under `src/`): when the model primary key is non-zero, synthesize
its equality condition and AND-combine it ahead of the existing user
condition, writing the result back into the criteria object (the method
receives the criteria by pointer, so the merge mutates the shared
object in place); when the key is zero-valued or absent the condition
is left unchanged. -/
def mergePkCondition (d : Dialect) (c : Criteria) : Criteria :=
  match c.model with
  | none => c
  | some m =>
    if m.pkZero then c
    else
      match m.pk with
      | none => c
      | some pkf =>
        match c.condition with
        | none => { c with condition := some (NewCondition (d.quote pkf.name ++ " = ?") [pkf.value]) }
        | some uc => { c with condition := some ((NewCondition (d.quote pkf.name ++ " = ?") [pkf.value]).andCondition uc) }

/-- Modelled from the spec: the concrete dialect `update` executor
(`base.go` and per-backend files, not under `src/`) renders the UPDATE
from the session criteria and executes it through the session `Exec`
path, which resets the criteria and records any error into the sticky
slot; the affected count and error are abstracted by the dialect
outcome. -/
def dialectUpdate (d : Dialect) (q : Qbs) : Qbs × Int × Option Err :=
  (({ q with criteria := emptyCriteria } : Qbs).updateTxError d.updateOutcome.2,
    d.updateOutcome.1, d.updateOutcome.2)

/-- Modelled from the spec: the concrete dialect `insert` executor (not
under `src/`), analogous to `dialectUpdate`; returns the generated id. -/
def dialectInsert (d : Dialect) (q : Qbs) : Qbs × Int × Option Err :=
  (({ q with criteria := emptyCriteria } : Qbs).updateTxError d.insertOutcome.2,
    d.insertOutcome.1, d.insertOutcome.2)

/-- Modelled from the spec: the concrete dialect `delete` executor (not
under `src/`), analogous to `dialectUpdate`. -/
def dialectDelete (d : Dialect) (q : Qbs) : Qbs × Int × Option Err :=
  (({ q with criteria := emptyCriteria } : Qbs).updateTxError d.deleteOutcome.2,
    d.deleteOutcome.1, d.deleteOutcome.2)

/-- A dialect statement execution as observed by `Save`, recorded with
the criteria in force when the statement was rendered. -/
inductive DialectCall where
  | updateCall (c : Criteria)
  | insertCall (c : Criteria)
deriving DecidableEq, Repr

/-- The write-back-relevant fields of the caller struct: the primary
key field value and the created/updated timestamp fields (`none` when
the struct has no such field). -/
structure StructState where
  pkVal : Option RawVal
  createdVal : Option RawVal
  updatedVal : Option RawVal
deriving DecidableEq, Repr

/-- The struct field values mirrored by a freshly built model. -/
def structOf (m : Model) : StructState :=
  ⟨m.pk.map (fun f => f.value), m.created.map (fun f => f.value),
    m.updated.map (fun f => f.value)⟩

/-- Stamp the model "updated" field with the current time
(`model.timeFiled("updated")` hands back a pointer into the model, so
the Go assignment mutates the model field; functionalized here). -/
def stampUpdated (m : Model) (now : RawVal) : Model :=
  match m.updated with
  | none => m
  | some f => { m with updated := some { f with value := now } }

/-- Stamp the model "created" field with the current time. -/
def stampCreated (m : Model) (now : RawVal) : Model :=
  match m.created with
  | none => m
  | some f => { m with created := some { f with value := now } }

/-- The write-back block of `Save` (lines 384-400): only on success,
store the generated id into an int64-typed primary key when non-zero,
refresh the updated stamp, and on the insert path the created stamp. -/
def writeBack (m : Model) (pkf : ModelField) (err : Option Err) (id : Int)
    (isInsert : Bool) (now : RawVal) : StructState :=
  let s0 := structOf m
  match err with
  | some _ => s0
  | none =>
    let s1 := match pkf.value with
      | .int _ => if id = 0 then s0 else { s0 with pkVal := some (.int id) }
      | _ => s0
    let s2 := if m.updated.isSome then { s1 with updatedVal := some now } else s1
    if isInsert && m.created.isSome then { s2 with createdVal := some now } else s2

/-- The full result of a `Save` call: final session state, the struct
fields after write-back, the returned affected count and error, and the
trace of dialect statement executions. -/
structure SaveResult where
  q : Qbs
  struc : StructState
  affected : Int
  err : Option Err
  calls : List DialectCall
deriving DecidableEq, Repr

/-- `Save` (lines 338-402).  `validateErr` abstracts the optional
`Validator` hook (`none` when absent or passing).  The introspected
model is the `m` parameter.  The `preservedCriteria` variable of the
source is a pointer alias of the session criteria, and both
`mergePkCondition` and the timestamp stamping mutate the shared
criteria/model objects in place, so the post-update restore reinstates
the merged-and-stamped criteria object, not a pre-merge snapshot; the
restore undoes the criteria reset performed inside the dialect update
execution. -/
def Save (q : Qbs) (m : Model) (d : Dialect) (validateErr : Option Err)
    (now : RawVal) : Outcome SaveResult :=
  match validateErr with
  | some e => .ok ⟨q, structOf m, 0, some e, []⟩
  | none =>
  match m.pk with
  | none => .panicked "no primary key field"
  | some pkf =>
    let m1 := stampUpdated m now
    if m1.pkZero then
      let m2 := stampCreated m1 now
      let cIns : Criteria := { q.criteria with model := some m2 }
      let r2 := dialectInsert d q
      let aff : Int := if r2.2.2 = none then 1 else 0
      .ok ⟨r2.1, writeBack m pkf r2.2.2 r2.2.1 true now, aff, r2.2.2, [.insertCall cIns]⟩
    else
      let cMerged := mergePkCondition d { q.criteria with model := some m1 }
      let r1 := dialectUpdate d { q with criteria := cMerged }
      if r1.2.1 = 0 ∧ r1.2.2 = none then
        let m2 := stampCreated m1 now
        let cIns : Criteria := { cMerged with model := some m2 }
        let r2 := dialectInsert d { r1.1 with criteria := cIns }
        let aff2 : Int := if r2.2.2 = none then 1 else 0
        .ok ⟨r2.1, writeBack m pkf r2.2.2 r2.2.1 true now, aff2, r2.2.2,
              [.updateCall cMerged, .insertCall cIns]⟩
      else
        .ok ⟨r1.1, writeBack m pkf r1.2.2 0 false now, r1.2.1, r1.2.2,
              [.updateCall cMerged]⟩

/-- `Update` (lines 410-424): validate, merge the primary-key condition
into the criteria, panic when no condition results, else execute the
dialect UPDATE. -/
def Update (q : Qbs) (m : Model) (d : Dialect) (validateErr : Option Err) :
    Outcome (Qbs × Int × Option Err) :=
  match validateErr with
  | some e => .ok (q, 0, some e)
  | none =>
    let c1 := mergePkCondition d { q.criteria with model := some m }
    match c1.condition with
    | none => .panicked "Can not update without condition"
    | some _ => .ok (dialectUpdate d { q with criteria := c1 })

/-- `Delete` (lines 428-436): merge the primary-key condition, panic
when no condition results, else execute the dialect DELETE. -/
def Delete (q : Qbs) (m : Model) (d : Dialect) :
    Outcome (Qbs × Int × Option Err) :=
  let c1 := mergePkCondition d { q.criteria with model := some m }
  match c1.condition with
  | none => .panicked "Can not delete without condition"
  | some _ => .ok (dialectDelete d { q with criteria := c1 })

/-! ## Shared lemmas -/

@[simp] theorem updateTxError_criteria (q : Qbs) (e : Option Err) :
    (q.updateTxError e).criteria = q.criteria := by
  cases e with
  | none => rfl
  | some e2 => simp only [Qbs.updateTxError]; split <;> rfl

/-- `true` exactly on a successful scan. -/
def ScanRes.isOk : ScanRes → Bool
  | .ok _ => true
  | _ => false

/-- The struct produced by a successful scan (total extractor). -/
def scanRowD (smv : Smv) (zero : StructVal) (l : List (String × Option RawVal)) : StructVal :=
  match scanRow smv zero l with
  | .ok s => s
  | .err s _ => s
  | .panicked _ => zero

theorem queryRowsLoop_all_ok (smv : Smv) (zero : StructVal) (cols : List String)
    (q0 : Qbs) (rows : List (List (Option RawVal)))
    (h : ∀ r ∈ rows, (scanRow smv zero (cols.zip r)).isOk = true) (acc : List StructVal) :
    queryRowsLoop smv zero cols q0 acc rows =
      .ok (q0, acc ++ rows.map (fun r => scanRowD smv zero (cols.zip r)), none) := by
  induction rows generalizing acc with
  | nil => simp [queryRowsLoop]
  | cons r rest ih =>
    have hr := h r (List.mem_cons_self r rest)
    have hrest : ∀ r2 ∈ rest, (scanRow smv zero (cols.zip r2)).isOk = true :=
      fun r2 hm => h r2 (List.mem_cons_of_mem r hm)
    cases hs : scanRow smv zero (cols.zip r) with
    | ok s =>
      simp only [queryRowsLoop, hs, ih hrest]
      simp [scanRowD, hs]
    | err s e => simp [hs, ScanRes.isOk] at hr
    | panicked msg => simp [hs, ScanRes.isOk] at hr

theorem queryRowsLoop_state (smv : Smv) (zero : StructVal) (cols : List String)
    (q0 : Qbs) (rows : List (List (Option RawVal))) (acc : List StructVal)
    (q2 : Qbs) (l : List StructVal) (e : Option Err)
    (h : queryRowsLoop smv zero cols q0 acc rows = .ok (q2, l, e)) : q2 = q0 := by
  induction rows generalizing acc with
  | nil =>
    simp only [queryRowsLoop] at h
    exact congrArg Prod.fst (Outcome.ok.inj h).symm
  | cons r rest ih =>
    simp only [queryRowsLoop] at h
    split at h
    · exact ih _ h
    · have := (Outcome.ok.inj h).symm
      exact congrArg Prod.fst this
    · exact absurd h (by simp)

/-! ## Claim theorems: Find criteria merging (C2) -/

/-- C2: when the struct argument of `Find` carries a non-zero primary
key, the criteria it builds forces the limit to 1 and carries the
synthesized primary-key equality condition AND-combined ahead of any
user condition (primary-key condition first, its bound value ahead of
the user bound values); when the primary key is zero-valued the user
condition is left unchanged. -/
theorem find_merges_pk_condition_first (d : Dialect) (c : Criteria) (m : Model) :
    (∀ pkf, m.pk = some pkf → m.pkZero = false →
      (findCriteria d c m).limit = 1 ∧
      (findCriteria d c m).condition = some
        (match c.condition with
         | none => pkCondition d m pkf
         | some uc => (pkCondition d m pkf).andCondition uc) ∧
      (∀ uc, c.condition = some uc →
        ((findCriteria d c m).condition.map Condition.args) = some (pkf.value :: uc.args))) ∧
    (m.pkZero = true →
      (findCriteria d c m).condition = c.condition ∧ (findCriteria d c m).limit = 1) := by
  constructor
  · intro pkf hpk hz
    refine ⟨?_, ?_, ?_⟩
    · cases hc : c.condition <;> simp [findCriteria, hz, hpk, hc]
    · cases hc : c.condition <;> simp [findCriteria, hz, hpk, hc]
    · intro uc huc
      simp [findCriteria, hz, hpk, huc, pkCondition, NewCondition, Condition.andCondition]
  · intro hz
    constructor <;> simp [findCriteria, hz]

/-- Witness for C2: with primary key `id = 5` and user condition
`x = ?` bound to 9, `Find` builds limit 1 and the merged condition with
the key value first; with `id = 0` the user condition is untouched. -/
theorem find_merges_pk_condition_first_witness :
    ((⟨"users", some ⟨"id", "Id", .int 5⟩, none, none⟩ : Model).pk
        = some ⟨"id", "Id", .int 5⟩ ∧
      (⟨"users", some ⟨"id", "Id", .int 5⟩, none, none⟩ : Model).pkZero = false) ∧
    (findCriteria ⟨fun s => s, (0, none), (0, none), (0, none)⟩
        { emptyCriteria with condition := some ⟨"x = ?", [.int 9]⟩ }
        ⟨"users", some ⟨"id", "Id", .int 5⟩, none, none⟩).limit = 1 ∧
    ((findCriteria ⟨fun s => s, (0, none), (0, none), (0, none)⟩
        { emptyCriteria with condition := some ⟨"x = ?", [.int 9]⟩ }
        ⟨"users", some ⟨"id", "Id", .int 5⟩, none, none⟩).condition.map Condition.args)
      = some [.int 5, .int 9] := by
  refine ⟨⟨rfl, by decide⟩, ?_, ?_⟩
  · exact ((find_merges_pk_condition_first
      ⟨fun s => s, (0, none), (0, none), (0, none)⟩
      { emptyCriteria with condition := some ⟨"x = ?", [.int 9]⟩ }
      ⟨"users", some ⟨"id", "Id", .int 5⟩, none, none⟩).1
      ⟨"id", "Id", .int 5⟩ rfl (by decide)).1
  · exact ((find_merges_pk_condition_first
      ⟨fun s => s, (0, none), (0, none), (0, none)⟩
      { emptyCriteria with condition := some ⟨"x = ?", [.int 9]⟩ }
      ⟨"users", some ⟨"id", "Id", .int 5⟩, none, none⟩).1
      ⟨"id", "Id", .int 5⟩ rfl (by decide)).2.2 ⟨"x = ?", [.int 9]⟩ rfl

/-! ## Claim theorems: Find on zero rows (C6) -/

/-- C6: a `Find` whose prepared query executes cleanly and matches zero
rows returns the distinguished `sql.ErrNoRows` outcome — an error (not
a silent success), carried by the dedicated `noRows` constructor that no
generic database or conversion error equals — and leaves the caller
struct untouched. -/
theorem find_zero_rows_returns_no_rows (q : Qbs) (d : Dialect) (m : Model)
    (smv : Smv) (out : StructVal) (cols : List String) :
    Find q d m smv out ⟨none, none, cols, []⟩ =
      .ok ({ q with criteria := emptyCriteria }, out, some .noRows) ∧
    (∀ msg, (Err.noRows = Err.dbErr msg → False) ∧
      (Err.noRows = Err.scanConv msg → False)) ∧
    some Err.noRows ≠ none := by
  refine ⟨?_, ?_, ?_⟩
  · simp [Find, doQueryRow]
  · intro msg
    exact ⟨fun h => (nomatch h), fun h => (nomatch h)⟩
  · simp

/-! ## Claim theorems: FindAll appends one struct per row (C7) -/

/-- Counterexample for C7: the claim says the resulting slice length
always equals the number of matching rows; but `FindAll` appends to the
caller-provided slice without truncating it, so with a one-element
starting slice and one result row the final slice has two elements. -/
theorem findall_does_not_truncate_initial_slice :
    FindAll ⟨false, emptyCriteria, none⟩ ⟨"users", none, none, none⟩ (fun _ v => .ok v)
        ⟨[("Name", .str "")], []⟩ [⟨[("Name", .str "z")], []⟩]
        ⟨none, none, ["name"], [[some (.str "a")]]⟩ =
      .ok (⟨false, emptyCriteria, none⟩,
        [⟨[("Name", .str "z")], []⟩, ⟨[("Name", .str "a")], []⟩], none) ∧
    ([(⟨[("Name", .str "z")], []⟩ : StructVal), ⟨[("Name", .str "a")], []⟩].length ≠
      [[some (RawVal.str "a")]].length) := by
  constructor
  · decide
  · decide

/-- C7 (amended): when preparation, execution and every row scan
succeed, `FindAll` appends exactly one scanned struct per result row to
the caller-provided slice, in result order, so the final length is the
starting length plus the row count (and equals the row count exactly
when the provided slice starts empty). -/
theorem findall_appends_one_struct_per_row (q : Qbs) (m : Model) (smv : Smv)
    (zero : StructVal) (init : List StructVal) (qe : QueryExec)
    (hp : qe.prepareErr = none) (hq : qe.queryErr = none)
    (hscan : ∀ r ∈ qe.rows, (scanRow smv zero (qe.cols.zip r)).isOk = true) :
    FindAll q m smv zero init qe =
      .ok ({ q with criteria := emptyCriteria },
        init ++ qe.rows.map (fun r => scanRowD smv zero (qe.cols.zip r)), none) ∧
    (init ++ qe.rows.map (fun r => scanRowD smv zero (qe.cols.zip r))).length =
      init.length + qe.rows.length := by
  obtain ⟨pe, qerr, cols, rows⟩ := qe
  simp only at hp hq hscan
  subst hp hq
  constructor
  · simp only [FindAll, doQueryRows]
    rw [queryRowsLoop_all_ok smv zero cols _ rows hscan init]
  · simp

/-- Witness for C7: from an empty starting slice, two clean rows produce
a slice of exactly the two scanned structs. -/
theorem findall_appends_one_struct_per_row_witness :
    (∀ r ∈ [[some (RawVal.str "a")], [some (RawVal.str "b")]],
      (scanRow (fun _ v => .ok v) ⟨[("Name", .str "")], []⟩
        (["name"].zip r)).isOk = true) ∧
    FindAll ⟨false, emptyCriteria, none⟩ ⟨"users", none, none, none⟩ (fun _ v => .ok v)
        ⟨[("Name", .str "")], []⟩ []
        ⟨none, none, ["name"], [[some (.str "a")], [some (.str "b")]]⟩ =
      .ok (⟨false, emptyCriteria, none⟩,
        [] ++ [[some (RawVal.str "a")], [some (RawVal.str "b")]].map
          (fun r => scanRowD (fun _ v => .ok v) ⟨[("Name", .str "")], []⟩ (["name"].zip r)),
        none) ∧
    ([] ++ [[some (RawVal.str "a")], [some (RawVal.str "b")]].map
        (fun r => scanRowD (fun _ v => .ok v) ⟨[("Name", .str "")], []⟩ (["name"].zip r))).length
      = ([] : List StructVal).length + 2 := by
  refine ⟨by decide, ?_, ?_⟩
  · exact (findall_appends_one_struct_per_row ⟨false, emptyCriteria, none⟩
      ⟨"users", none, none, none⟩ (fun _ v => .ok v) ⟨[("Name", .str "")], []⟩ []
      ⟨none, none, ["name"], [[some (.str "a")], [some (.str "b")]]⟩
      rfl rfl (by decide)).1
  · exact (findall_appends_one_struct_per_row ⟨false, emptyCriteria, none⟩
      ⟨"users", none, none, none⟩ (fun _ v => .ok v) ⟨[("Name", .str "")], []⟩ []
      ⟨none, none, ["name"], [[some (.str "a")], [some (.str "b")]]⟩
      rfl rfl (by decide)).2

/-! ## Claim theorems: the Save upsert state machine (C1) -/

/-- The criteria in force for the UPDATE attempt of `Save`: model
installed (updated stamp applied) and primary-key condition merged. -/
def saveMergedCriteria (q : Qbs) (m : Model) (d : Dialect) (now : RawVal) : Criteria :=
  mergePkCondition d { q.criteria with model := some (stampUpdated m now) }

/-- The model as stamped for an insert: updated and created both set. -/
def saveFallbackModel (m : Model) (now : RawVal) : Model :=
  stampCreated (stampUpdated m now) now

/-- The criteria in force for the fallback INSERT of `Save`: the
restored (aliased, hence still merged) criteria with the created stamp
applied through the shared model. -/
def saveFallbackCriteria (q : Qbs) (m : Model) (d : Dialect) (now : RawVal) : Criteria :=
  { saveMergedCriteria q m d now with model := some (saveFallbackModel m now) }

/-- The criteria in force for the direct INSERT of `Save` (zero key). -/
def saveDirectInsertCriteria (q : Qbs) (m : Model) (now : RawVal) : Criteria :=
  { q.criteria with model := some (saveFallbackModel m now) }

/-- The conditions of the INSERT statements recorded in a call trace. -/
def insertConditions (calls : List DialectCall) : List (Option Condition) :=
  calls.filterMap (fun c => match c with | .insertCall cr => some cr.condition | _ => none)

/-- The INSERT conditions of a completed `Save`. -/
def saveInsertConditions : Outcome SaveResult → List (Option Condition)
  | .ok r => insertConditions r.calls
  | .panicked _ => []

/-- Counterexample for C1: the claim says the fallback INSERT restores
the pre-update-condition criteria; but `preservedCriteria` is a pointer
alias of the criteria object that `mergePkCondition` mutated in place,
so the INSERT executes with the merged condition
`(id = ?) AND (name = ?)` and not with the pre-merge user condition
`name = ?` that was in force before the update condition was added. -/
theorem save_fallback_keeps_merged_condition :
    saveInsertConditions (Save
        ⟨false, { emptyCriteria with condition := some ⟨"name = ?", [.str "a"]⟩ }, none⟩
        ⟨"users", some ⟨"id", "Id", .int 5⟩, some ⟨"created", "Created", .time 0⟩,
          some ⟨"updated", "Updated", .time 0⟩⟩
        ⟨fun s => s, (0, none), (7, none), (0, none)⟩ none (.time 42)) =
      [some ⟨"(id = ?) AND (name = ?)", [.int 5, .str "a"]⟩] ∧
    (some (⟨"(id = ?) AND (name = ?)", [.int 5, .str "a"]⟩ : Condition) ≠
      some (⟨"name = ?", [.str "a"]⟩ : Condition)) := by
  constructor
  · decide
  · decide

/-- C1 (amended): with a primary-key field present and validation
passing, a zero-valued key makes `Save` perform a single direct INSERT
(no UPDATE), writing a non-zero generated id back into an int64-typed
key on success; a non-zero key makes `Save` attempt an UPDATE first and
fall back to an INSERT — with the created timestamp stamped into the
insert model and the aliased merged criteria (still carrying the merged
primary-key condition) restored — exactly when the UPDATE affected zero
rows and returned no error; an UPDATE error or a non-zero affected
count yields no fallback. -/
theorem save_upsert_state_machine (q : Qbs) (m : Model) (d : Dialect) (now : RawVal)
    (pkf : ModelField) (hpk : m.pk = some pkf) :
    ((stampUpdated m now).pkZero = true →
      ∀ r, Save q m d none now = .ok r →
        r.calls = [.insertCall (saveDirectInsertCriteria q m now)] ∧
        (∀ i id, pkf.value = .int i → d.insertOutcome = (id, none) → id ≠ 0 →
          r.struc.pkVal = some (.int id) ∧ r.err = none ∧ r.affected = 1)) ∧
    ((stampUpdated m now).pkZero = false → d.updateOutcome = (0, none) →
      ∀ r, Save q m d none now = .ok r →
        r.calls = [.updateCall (saveMergedCriteria q m d now),
                   .insertCall (saveFallbackCriteria q m d now)] ∧
        (∀ f, m.created = some f →
          (saveFallbackModel m now).created = some { f with value := now })) ∧
    ((stampUpdated m now).pkZero = false →
      ∀ a e, d.updateOutcome = (a, some e) →
      ∀ r, Save q m d none now = .ok r →
        r.calls = [.updateCall (saveMergedCriteria q m d now)] ∧ r.err = some e) ∧
    ((stampUpdated m now).pkZero = false →
      ∀ a, a ≠ 0 → d.updateOutcome = (a, none) →
      ∀ r, Save q m d none now = .ok r →
        r.calls = [.updateCall (saveMergedCriteria q m d now)] ∧
          r.affected = a ∧ r.err = none) := by
  refine ⟨?_, ?_, ?_, ?_⟩
  · intro hz r hr
    simp [Save, hpk, hz] at hr
    subst hr
    constructor
    · simp [saveDirectInsertCriteria, saveFallbackModel]
    · intro i id hv hio hid
      cases hcr : m.created <;> cases hup : m.updated <;>
        simp [writeBack, dialectInsert, hio, hv, hid, structOf, hcr, hup]
  · intro hz hu r hr
    simp [Save, hpk, hz, dialectUpdate, hu] at hr
    subst hr
    constructor
    · simp [saveMergedCriteria, saveFallbackCriteria, saveFallbackModel]
    · intro f hf
      cases hmu : m.updated <;>
        simp [saveFallbackModel, stampCreated, stampUpdated, hf, hmu]
  · intro hz a e hu r hr
    simp [Save, hpk, hz, dialectUpdate, hu] at hr
    subst hr
    exact ⟨by simp [saveMergedCriteria], rfl⟩
  · intro hz a ha hu r hr
    simp [Save, hpk, hz, dialectUpdate, hu, ha] at hr
    subst hr
    exact ⟨by simp [saveMergedCriteria], rfl, rfl⟩

/-- The session of the C1 fallback scenario. -/
def qC1 : Qbs :=
  ⟨false, { emptyCriteria with condition := some ⟨"name = ?", [.str "a"]⟩ }, none⟩

/-- The model of the C1 fallback scenario. -/
def mC1 : Model :=
  ⟨"users", some ⟨"id", "Id", .int 5⟩, some ⟨"created", "Created", .time 0⟩,
    some ⟨"updated", "Updated", .time 0⟩⟩

/-- The dialect of the C1 fallback scenario: the UPDATE affects zero
rows without error, the INSERT generates id 7. -/
def dC1 : Dialect := ⟨fun s => s, (0, none), (7, none), (0, none)⟩

/-- The result of the C1 fallback scenario. -/
def rC1 : SaveResult :=
  ⟨⟨false, emptyCriteria, none⟩, ⟨some (.int 7), some (.time 42), some (.time 42)⟩, 1, none,
    [.updateCall (saveMergedCriteria qC1 mC1 dC1 (.time 42)),
     .insertCall (saveFallbackCriteria qC1 mC1 dC1 (.time 42))]⟩

/-- Witness for C1: the concrete fallback scenario runs UPDATE then
INSERT with the stamped fallback criteria. -/
theorem save_upsert_state_machine_witness :
    Save qC1 mC1 dC1 none (.time 42) = .ok rC1 ∧
    rC1.calls = [.updateCall (saveMergedCriteria qC1 mC1 dC1 (.time 42)),
                 .insertCall (saveFallbackCriteria qC1 mC1 dC1 (.time 42))] :=
  ⟨by decide, ((save_upsert_state_machine qC1 mC1 dC1 (.time 42)
    ⟨"id", "Id", .int 5⟩ (by decide)).2.1 (by decide) (by decide) rC1 (by decide)).1⟩

/-! ## Claim theorems: missing primary key (C3) -/

/-- Counterexample for C3: the claim says an `Update` on a struct with
no recognized primary-key field fails fatally with a "no primary key"
panic before any SQL is issued; but with a user condition present the
call proceeds normally and returns the dialect UPDATE outcome. -/
theorem update_without_pk_field_proceeds :
    Update ⟨false, { emptyCriteria with condition := some ⟨"name = ?", [.str "a"]⟩ }, none⟩
        ⟨"users", none, none, none⟩ ⟨fun s => s, (3, none), (0, none), (0, none)⟩ none =
      .ok (⟨false, emptyCriteria, none⟩, 3, none) := by
  decide

/-- C3 (amended): on a struct with no recognized primary-key field,
`Save` always panics ("no primary key field") before issuing SQL, while
`Update` and `Delete` panic ("Can not update/delete without condition")
exactly when no user condition is present; with a user condition they
proceed and complete. -/
theorem missing_pk_fatal_only_without_condition (q : Qbs) (m : Model) (d : Dialect)
    (now : RawVal) (hpk : m.pk = none) :
    Save q m d none now = .panicked "no primary key field" ∧
    (q.criteria.condition = none →
      Update q m d none = .panicked "Can not update without condition" ∧
      Delete q m d = .panicked "Can not delete without condition") ∧
    (∀ uc, q.criteria.condition = some uc →
      (∃ out, Update q m d none = .ok out) ∧ (∃ out, Delete q m d = .ok out)) := by
  have hz : m.pkZero = true := by simp [Model.pkZero, hpk]
  have hmerge : ∀ c : Criteria, c.model = some m → mergePkCondition d c = c := by
    intro c hc
    simp [mergePkCondition, hc, hz]
  refine ⟨by simp [Save, hpk], ?_, ?_⟩
  · intro hcond
    constructor
    · simp [Update, hmerge, hcond]
    · simp [Delete, hmerge, hcond]
  · intro uc hcond
    constructor
    · have hu2 : Update q m d none =
          .ok (dialectUpdate d { q with criteria := mergePkCondition d { q.criteria with model := some m } }) := by
        simp [Update, hmerge, hcond]
      exact ⟨_, hu2⟩
    · have hd2 : Delete q m d =
          .ok (dialectDelete d { q with criteria := mergePkCondition d { q.criteria with model := some m } }) := by
        simp [Delete, hmerge, hcond]
      exact ⟨_, hd2⟩

/-- Witness for C3: a model without primary key makes `Save`, `Update`
and `Delete` panic when no condition is configured, and a second session
with a user condition lets `Update` complete. -/
theorem missing_pk_fatal_only_without_condition_witness :
    Save ⟨false, emptyCriteria, none⟩ ⟨"users", none, none, none⟩
        ⟨fun s => s, (0, none), (0, none), (0, none)⟩ none (.time 0) =
      .panicked "no primary key field" ∧
    Update ⟨false, emptyCriteria, none⟩ ⟨"users", none, none, none⟩
        ⟨fun s => s, (0, none), (0, none), (0, none)⟩ none =
      .panicked "Can not update without condition" ∧
    Delete ⟨false, emptyCriteria, none⟩ ⟨"users", none, none, none⟩
        ⟨fun s => s, (0, none), (0, none), (0, none)⟩ =
      .panicked "Can not delete without condition" := by
  have h := missing_pk_fatal_only_without_condition ⟨false, emptyCriteria, none⟩
    ⟨"users", none, none, none⟩ ⟨fun s => s, (0, none), (0, none), (0, none)⟩
    (.time 0) rfl
  exact ⟨h.1, (h.2.1 rfl).1, (h.2.1 rfl).2⟩

/-! ## Claim theorems: criteria reset after executing calls (C4) -/

theorem doQueryRow_criteria (q : Qbs) (smv : Smv) (out : StructVal) (qe : QueryExec)
    (q2 : Qbs) (s : StructVal) (e : Option Err)
    (h : doQueryRow q smv out qe = .ok (q2, s, e)) : q2.criteria = emptyCriteria := by
  simp only [doQueryRow] at h
  repeat' split at h
  all_goals
    first
      | (obtain ⟨h1, h2, h3⟩ := h
         subst h1
         first
           | rfl
           | (simp only [updateTxError_criteria]; rfl)
           | simp)
      | (simp only [Outcome.ok.injEq, Prod.mk.injEq] at h
         obtain ⟨h1, h2, h3⟩ := h
         subst h1
         first
           | rfl
           | (simp only [updateTxError_criteria]; rfl)
           | simp)
      | simp at h

theorem doQueryRows_criteria (q : Qbs) (smv : Smv) (zero : StructVal)
    (init : List StructVal) (qe : QueryExec)
    (q2 : Qbs) (l : List StructVal) (e : Option Err)
    (h : doQueryRows q smv zero init qe = .ok (q2, l, e)) : q2.criteria = emptyCriteria := by
  simp only [doQueryRows] at h
  repeat' split at h
  all_goals
    first
      | (obtain ⟨h1, h2, h3⟩ := h
         subst h1
         first
           | rfl
           | (simp only [updateTxError_criteria]; rfl)
           | simp)
      | (simp only [Outcome.ok.injEq, Prod.mk.injEq] at h
         obtain ⟨h1, h2, h3⟩ := h
         subst h1
         first
           | rfl
           | (simp only [updateTxError_criteria]; rfl)
           | simp)
      | (have h2 := queryRowsLoop_state _ _ _ _ _ _ _ _ _ h
         subst h2
         simp)
      | simp at h

/-- Counterexample for C4: the claim says the criteria is reset after
every executing call; but a `Save` aborted by the validation hook
returns before touching the criteria, so the configured limit survives
into the next call. -/
theorem save_validation_abort_leaves_criteria :
    Save ⟨false, { emptyCriteria with limit := 7 }, none⟩
        ⟨"users", some ⟨"id", "Id", .int 0⟩, none, none⟩
        ⟨fun s => s, (0, none), (0, none), (0, none)⟩ (some (.validation "v")) (.time 0) =
      .ok ⟨⟨false, { emptyCriteria with limit := 7 }, none⟩, ⟨some (.int 0), none, none⟩,
            0, some (.validation "v"), []⟩ ∧
    ({ emptyCriteria with limit := 7 } : Criteria) ≠ emptyCriteria := by
  constructor
  · decide
  · decide

/-- C4 (amended): after every executing call that passes (or lacks) the
validation hook and completes without panicking — `Find`, `FindAll`,
`Exec`, `Save`, `Update`, `Delete` — the session criteria is the fresh
empty criteria, so no condition, limit, offset, ordering, omission list
or join-suppression flag leaks into the next call; only a
validation-aborted `Save` or `Update` leaves the criteria untouched. -/
theorem criteria_reset_after_executing_calls (q : Qbs) (d : Dialect) (m : Model)
    (smv : Smv) (out zero : StructVal) (init : List StructVal) (qe : QueryExec)
    (now : RawVal) (pe ee : Option Err) :
    (∀ q2 s e, Find q d m smv out qe = .ok (q2, s, e) → q2.criteria = emptyCriteria) ∧
    (∀ q2 l e, FindAll q m smv zero init qe = .ok (q2, l, e) → q2.criteria = emptyCriteria) ∧
    (Exec q pe ee).1.criteria = emptyCriteria ∧
    (∀ r, Save q m d none now = .ok r → r.q.criteria = emptyCriteria) ∧
    (∀ q2 a e, Update q m d none = .ok (q2, a, e) → q2.criteria = emptyCriteria) ∧
    (∀ q2 a e, Delete q m d = .ok (q2, a, e) → q2.criteria = emptyCriteria) := by
  refine ⟨?_, ?_, ?_, ?_, ?_, ?_⟩
  · intro q2 s e h
    simp only [Find] at h
    exact doQueryRow_criteria _ _ _ _ _ _ _ h
  · intro q2 l e h
    simp only [FindAll] at h
    exact doQueryRows_criteria _ _ _ _ _ _ _ _ h
  · cases pe <;> cases ee <;> simp [Exec]
  · intro r h
    cases hpk : m.pk with
    | none => simp [Save, hpk] at h
    | some pkf =>
      simp only [Save, hpk] at h
      repeat' split at h
      all_goals
        first
          | (subst h
             simp [dialectInsert, dialectUpdate])
          | (simp only [Outcome.ok.injEq] at h
             subst h
             simp [dialectInsert, dialectUpdate])
          | simp at h
  · intro q2 a e h
    simp only [Update] at h
    split at h
    · exact absurd h (by simp)
    · simp only [Outcome.ok.injEq, dialectUpdate, Prod.mk.injEq] at h
      obtain ⟨h1, h2, h3⟩ := h
      subst h1
      simp
  · intro q2 a e h
    simp only [Delete] at h
    split at h
    · exact absurd h (by simp)
    · simp only [Outcome.ok.injEq, dialectDelete, Prod.mk.injEq] at h
      obtain ⟨h1, h2, h3⟩ := h
      subst h1
      simp

/-- The session of the C4 witness scenario. -/
def qC4 : Qbs := ⟨false, { emptyCriteria with limit := 7 }, none⟩

/-- The model of the C4 witness scenario. -/
def mC4 : Model := ⟨"users", some ⟨"id", "Id", .int 0⟩, none, none⟩

/-- The dialect of the C4 witness scenario. -/
def dC4 : Dialect := ⟨fun s => s, (0, none), (0, none), (0, none)⟩

/-- The result of the C4 witness `Save`. -/
def rC4 : SaveResult :=
  ⟨⟨false, emptyCriteria, none⟩, ⟨some (.int 0), none, none⟩, 1, none,
    [.insertCall { qC4.criteria with model := some mC4 }]⟩

/-- Witness for C4: a concrete `Exec` and a concrete completed `Save`
both end with the empty criteria. -/
theorem criteria_reset_after_executing_calls_witness :
    (Exec qC4 none none).1.criteria = emptyCriteria ∧
    Save qC4 mC4 dC4 none (.time 1) = .ok rC4 ∧
    rC4.q.criteria = emptyCriteria := by
  have h := criteria_reset_after_executing_calls qC4 dC4 mC4 (fun _ v => .ok v)
    ⟨[], []⟩ ⟨[], []⟩ [] ⟨none, none, [], []⟩ (.time 1) none none
  exact ⟨h.2.2.1, by decide, h.2.2.2.1 rC4 (by decide)⟩

end QbsSpec

